/-
Verification of the MIDAS degradation-prediction core against its
natural-language specification.

The definitions below are shallow embeddings of the Python sources:
  * `src/domain/enums.py`, `src/domain/entities.py` (dependency chains),
  * `src/simulation/generator.py` (resiliency-grade aggregation),
  * `src/simulation/distributions.py` (probability segments),
  * `src/prediction/models/decay_model.py` and `src/prediction/datasets.py`
    (exponential decay model and training labels).

Python floats are modelled as real numbers (`ℝ`) where transcendental
functions (`log`, fractional powers) appear, and as rationals (`ℚ`) in the
purely arithmetic trajectory code so that concrete trajectories evaluate.
Python `int` is modelled as `ℤ`.  A Python function that catches
`ValueError`/`ZeroDivisionError` is modelled by an explicit test for the
conditions under which those exceptions arise.
-/
import Mathlib

namespace Midas

/-! ## Domain enums (`src/domain/enums.py`) -/

/-- `DependencyTier`: facility dependency hierarchy tiers. -/
inductive DependencyTier where
  | PRIMARY
  | SECONDARY
  | TERTIARY
deriving DecidableEq, Repr

/-- `DependencyTier.ordered()`: tiers in hierarchical order (top to bottom). -/
def DependencyTier.ordered : List DependencyTier :=
  [.PRIMARY, .SECONDARY, .TERTIARY]

/-- `UFCGrade`: UFC 4-141-03 resiliency grades G1..G4. -/
inductive UFCGrade where
  | G1
  | G2
  | G3
  | G4
deriving DecidableEq, Repr

/-- The numeric value of a `UFCGrade` (`.value` in Python). -/
def UFCGrade.val : UFCGrade → ℤ
  | .G1 => 1
  | .G2 => 2
  | .G3 => 3
  | .G4 => 4

/-! ## Dependency chains (`src/domain/entities.py`) -/

/-- `DependencyChain`: a facility's position in the dependency hierarchy. -/
structure DependencyChain where
  tier : Option DependencyTier := none
  group_ids : List ℤ := []
deriving DecidableEq, Repr

/-- Index of a tier in `DependencyTier.ordered` (`ordered.index(tier)`). -/
def tierIndex (t : DependencyTier) : ℕ :=
  DependencyTier.ordered.indexOf t

/-- `DependencyChain.depends_on`: true iff both tiers are set, `self` is
strictly higher in the hierarchy (lower index in `ordered`) and the two
chains share at least one group id (`bool(set(a) & set(b))`). -/
def DependencyChain.depends_on (self other : DependencyChain) : Bool :=
  match self.tier, other.tier with
  | none, _ => false
  | _, none => false
  | some st, some ot =>
    if tierIndex st ≥ tierIndex ot then false
    else self.group_ids.any (fun g => other.group_ids.contains g)

/-! ## Resiliency-grade aggregation (`src/simulation/generator.py`) -/

/-- Result of `_calculate_grade_from_dependents`: either an independent
draw from the grade distribution (`self._sample_grade()`, a random path we
keep abstract) or a deterministically computed grade. -/
inductive GradeResult where
  | sampled
  | grade (g : UFCGrade)
deriving DecidableEq, Repr

/-- The grades carried by a list of dependents
(`[f.resiliency_grade.value for f in dependents if f.resiliency_grade]`).
A dependent facility is modelled by its optional resiliency grade, the
only field this computation reads. -/
def gradesOf (dependents : List (Option UFCGrade)) : List ℤ :=
  dependents.filterMap (fun g => g.map UFCGrade.val)

/-- `_calculate_grade_from_dependents`: majority rule with a 70% threshold
over the dependents that carry a grade; `G1` when dependents exist but none
carries a grade; an independent draw when there are no dependents at all. -/
def calculateGradeFromDependents (dependents : List (Option UFCGrade)) :
    GradeResult :=
  if dependents = [] then .sampled
  else
    let grades := gradesOf dependents
    if grades = [] then .grade .G1
    else
      let total : ℚ := grades.length
      if ((grades.filter (fun g => 4 ≤ g)).length : ℚ) / total ≥ 7 / 10 then
        .grade .G4
      else if ((grades.filter (fun g => 3 ≤ g)).length : ℚ) / total ≥ 7 / 10 then
        .grade .G3
      else if ((grades.filter (fun g => 2 ≤ g)).length : ℚ) / total ≥ 7 / 10 then
        .grade .G2
      else .grade .G1

/-! ## Probability segments (`src/simulation/distributions.py`) -/

/-- A constructed `ProbabilitySegment`: percentage weight and raw value
string. -/
structure ProbabilitySegment where
  percentage : ℤ
  value : String
deriving DecidableEq, Repr

/-- Python `str.strip()`: drop whitespace from both ends.  (The core
`String.trim` is avoided because its recursion does not reduce inside the
kernel.) -/
def pyStrip (s : String) : String :=
  ⟨((s.data.dropWhile Char.isWhitespace).reverse.dropWhile
      Char.isWhitespace).reverse⟩

/-- Splitting a character list at every occurrence of a separator
character, keeping empty pieces, as Python's `str.split(sep)` does. -/
def splitChar (c : Char) : List Char → List (List Char)
  | [] => [[]]
  | x :: rest =>
    let r := splitChar c rest
    if x = c then [] :: r
    else
      match r with
      | [] => [[x]]
      | y :: ys => (x :: y) :: ys

/-- Python `s.split("-")` for a one-character separator. -/
def pySplit (s : String) (c : Char) : List String :=
  (splitChar c s.data).map String.mk

/-- `ProbabilitySegment.__init__`: raises `ValueError` when the percentage
is outside `[1,100]` or the value is `None` or strips to the empty string;
otherwise stores the pair unchanged (no parsing happens here). -/
def mkProbabilitySegment (percentage : ℤ) (value : Option String) :
    Except String ProbabilitySegment :=
  if ¬ (1 ≤ percentage ∧ percentage ≤ 100) then
    .error "Percentage must be between 1 and 100"
  else
    match value with
    | none => .error "Value cannot be None or an empty string"
    | some v =>
      if pyStrip v = "" then .error "Value cannot be None or an empty string"
      else .ok ⟨percentage, v⟩

/-- Digit run accepted by Python's `int(...)`: nonempty, made of decimal
digits with single underscores allowed strictly between digits. -/
def pyDigitsOk (cs : List Char) : Bool :=
  !cs.isEmpty
    && cs.all (fun c => c.isDigit || c == '_')
    && (cs.head?.elim false Char.isDigit)
    && (cs.getLast?.elim false Char.isDigit)
    && (cs.zip cs.tail).all (fun p => !(p.1 == '_' && p.2 == '_'))

/-- Numeric value of a digit run, ignoring underscores. -/
def pyDigitsVal (cs : List Char) : ℤ :=
  cs.foldl (fun acc c => if c.isDigit then 10 * acc + (c.toNat - '0'.toNat : ℤ) else acc) 0

/-- Python `int(s)` on an already whitespace-free core with optional sign. -/
def pyIntCore (cs : List Char) : Option ℤ :=
  match cs with
  | '+' :: rest => if pyDigitsOk rest then some (pyDigitsVal rest) else none
  | '-' :: rest => if pyDigitsOk rest then some (-(pyDigitsVal rest)) else none
  | _ => if pyDigitsOk cs then some (pyDigitsVal cs) else none

/-- Python `int(s)` for a string: strips surrounding whitespace, then an
optional sign followed by digits; `none` models `ValueError`. -/
def pyInt (s : String) : Option ℤ :=
  pyIntCore (pyStrip s).data

/-- A parsed segment value: a single integer or an integer range. -/
inductive ParsedValue where
  | int (n : ℤ)
  | range (lo hi : ℤ)
deriving DecidableEq, Repr

/-- `ProbabilitySegment._parse_value`: when the value contains `-` and
splits into exactly two parts, parse both as ints (returning `none` on a
`ValueError`), swap so the smaller comes first, and collapse an equal pair
to a single int; otherwise parse the whole stripped string as one int. -/
def parseValue (v : String) : Option ParsedValue :=
  if v.data.contains '-' ∧ (pySplit v '-').length = 2 then
    match pyInt (pyStrip (pySplit v '-')[0]!),
        pyInt (pyStrip (pySplit v '-')[1]!) with
    | some l0, some r0 =>
      let l := if l0 > r0 then r0 else l0
      let r := if l0 > r0 then l0 else r0
      if l ≠ r then some (.range l r) else some (.int l)
    | _, _ => none
  else
    (pyInt (pyStrip v)).map .int

/-! ## Trajectory projection (`ExponentialDecayModel._generate_trajectory`)

This function only multiplies, subtracts, rounds to two decimals and
compares, so it is embedded over `ℚ` to stay executable. -/

/-- Python `round(x)` to an integer: round half to even. -/
def pyRound (x : ℚ) : ℤ :=
  if x - ⌊x⌋ = 1 / 2 then (if 2 ∣ ⌊x⌋ then ⌊x⌋ else ⌊x⌋ + 1)
  else round x

/-- Python `round(x, 2)`: round to two decimal places, half to even. -/
def round2 (x : ℚ) : ℚ :=
  (pyRound (x * 100) : ℚ) / 100

/-- Loop body of `_generate_trajectory`: `remaining` months left to
project, starting at month number `month` with unrounded condition index
`ci`.  Each step applies `ci ← ci·(1−R)`, records `(month, round(ci, 2))`
and stops when the unrounded `ci` falls to or below the threshold. -/
def trajAux (threshold r : ℚ) : ℕ → ℕ → ℚ → List (ℕ × ℚ)
  | 0, _, _ => []
  | n + 1, month, ci =>
    let ci2 := ci * (1 - r)
    (month, round2 ci2) ::
      (if ci2 ≤ threshold then [] else trajAux threshold r n (month + 1) ci2)

/-- `_generate_trajectory`: the list starts with the unrounded
`(0, current_ci)` and then projects `for month in range(1, min(months_ahead
+ 1, 121))`, i.e. at most `min(months_ahead, 120)` further entries. -/
def generateTrajectory (threshold : ℚ) (current_ci r : ℚ)
    (months_ahead : ℤ) : List (ℕ × ℚ) :=
  (0, current_ci) :: trajAux threshold r (min months_ahead 120).toNat 1 current_ci

/-! ## Exponential decay model (`src/prediction/models/decay_model.py`)

The model's configuration is the pair `(initial_ci, degradation_threshold)`
set in `__init__`; it is passed to each function explicitly.  Exponents of
the form `ratio ** (1 / age)` on a positive float base are modelled by
`Real.rpow`. -/

/-- `ExponentialDecayModel._calculate_decay_rate`:
`R = 1 - (CI_current / CI_initial)^(1/age)`, `none` when it cannot be
calculated (age not positive, a non-positive CI, ratio outside `(0,1)`, or
a non-positive resulting rate). -/
noncomputable def calculateDecayRate (initial_ci : ℝ) (current_ci : ℝ)
    (age_months : ℤ) : Option ℝ :=
  if age_months ≤ 0 then none
  else if current_ci ≤ 0 ∨ initial_ci ≤ 0 then none
  else
    let ratio := current_ci / initial_ci
    if ratio ≤ 0 ∨ 1 ≤ ratio then none
    else
      let decay_rate := 1 - ratio ^ ((1 : ℝ) / (age_months : ℝ))
      if decay_rate > 0 then some decay_rate else none

/-- The `try` block shared by `_months_until_threshold` and the dataset
generator: `log(threshold / current_ci) / log(1 - decay_rate)` clamped to
be non-negative, with `999.0` when `math.log` would raise `ValueError`
(argument ≤ 0) or the division would raise `ZeroDivisionError`. -/
noncomputable def tryLogMonths (threshold current_ci decay_rate : ℝ) : ℝ :=
  if threshold / current_ci ≤ 0 ∨ 1 - decay_rate ≤ 0
      ∨ Real.log (1 - decay_rate) = 0 then 999
  else max 0 (Real.log (threshold / current_ci) / Real.log (1 - decay_rate))

/-- `ExponentialDecayModel._months_until_threshold`: `999.0` for a decay
rate outside `(0,1)`, `0.0` when already at or below the threshold, else
the clamped log formula. -/
noncomputable def monthsUntilThreshold (threshold : ℝ)
    (current_ci decay_rate : ℝ) : ℝ :=
  if decay_rate ≥ 1 ∨ decay_rate ≤ 0 then 999
  else if current_ci ≤ threshold then 0
  else tryLogMonths threshold current_ci decay_rate

/-- `ExponentialDecayModel._calculate_months_to_degradation`: `0.0` when
already degraded, `999.0` when no decay rate can be inferred (or it is not
positive), else `_months_until_threshold` at the inferred rate. -/
noncomputable def calculateMonthsToDegradation (initial_ci threshold : ℝ)
    (current_ci : ℝ) (age_months : ℤ) : ℝ :=
  if current_ci ≤ threshold then 0
  else
    match calculateDecayRate initial_ci current_ci age_months with
    | none => 999
    | some decay_rate =>
      if decay_rate ≤ 0 then 999
      else monthsUntilThreshold threshold current_ci decay_rate

/-! ## Training labels (`src/prediction/datasets.py`)

`TrainingDataGenerator._compute_decay_rate` is textually the same
computation as the model's `_calculate_decay_rate`, reading
`config.initial_ci` instead of `self.initial_ci`. -/

/-- `TrainingDataGenerator._compute_decay_rate`. -/
noncomputable def computeDecayRate (initial_ci : ℝ) (current_ci : ℝ)
    (age_months : ℤ) : Option ℝ :=
  if age_months ≤ 0 then none
  else if current_ci ≤ 0 ∨ initial_ci ≤ 0 then none
  else
    let ratio := current_ci / initial_ci
    if ratio ≤ 0 ∨ 1 ≤ ratio then none
    else
      let decay_rate := 1 - ratio ^ ((1 : ℝ) / (age_months : ℝ))
      if decay_rate > 0 then some decay_rate else none

/-- `TrainingDataGenerator._compute_months_to_degradation`: like the
model's composition but with an inline solver whose `decay_rate >= 1.0`
branch returns `0.0`. -/
noncomputable def computeMonthsToDegradation (initial_ci threshold : ℝ)
    (current_ci : ℝ) (age_months : ℤ) : ℝ :=
  if current_ci ≤ threshold then 0
  else
    match computeDecayRate initial_ci current_ci age_months with
    | none => 999
    | some decay_rate =>
      if decay_rate ≤ 0 then 999
      else if decay_rate ≥ 1 then 0
      else tryLogMonths threshold current_ci decay_rate

/-- `TrainingDataGenerator._compute_degradation_rate`: the inferred rate,
reported as `0.0` when it is undefined. -/
noncomputable def computeDegradationRate (initial_ci : ℝ) (current_ci : ℝ)
    (age_months : ℤ) : ℝ :=
  (computeDecayRate initial_ci current_ci age_months).getD 0

/-! ## Helper lemmas -/

/-- `bool(set(a) & set(b))` is true exactly when the two lists share an
element. -/
lemma anyShared_iff (xs ys : List ℤ) :
    (xs.any (fun g => ys.contains g)) = true ↔ ∃ g, g ∈ xs ∧ g ∈ ys := by
  simp [List.any_eq_true]

/-! ## Claims about `DependencyChain.depends_on` -/

/-- C8: `a.depends_on b` holds iff both tiers are set, `a`'s tier is
strictly higher (closer to PRIMARY, i.e. a smaller index in
`DependencyTier.ordered`) than `b`'s tier, and the chains share at least
one group id; in particular it is false when either tier is `none`. -/
theorem depends_on_characterisation (a b : DependencyChain) :
    a.depends_on b = true ↔
      ∃ ta tb, a.tier = some ta ∧ b.tier = some tb ∧
        tierIndex ta < tierIndex tb ∧
        ∃ g, g ∈ a.group_ids ∧ g ∈ b.group_ids := by
  cases ha : a.tier with
  | none => simp [DependencyChain.depends_on, ha]
  | some ta =>
    cases hb : b.tier with
    | none => simp [DependencyChain.depends_on, ha, hb]
    | some tb =>
      by_cases hord : tierIndex ta ≥ tierIndex tb
      · simp only [DependencyChain.depends_on, ha, hb, if_pos hord]
        constructor
        · intro h; exact absurd h (by simp)
        · rintro ⟨ta', tb', hta, htb, hlt, -⟩
          rw [Option.some_inj] at hta htb
          subst hta; subst htb; omega
      · simp only [DependencyChain.depends_on, ha, hb, if_neg hord]
        rw [anyShared_iff]
        constructor
        · intro h
          exact ⟨ta, tb, rfl, rfl, by omega, h⟩
        · rintro ⟨ta', tb', hta, htb, -, hg⟩
          exact hg

/-- C8 witness: a concrete TERTIARY-over-SECONDARY pair on which the
characterisation evaluates. -/
theorem depends_on_characterisation_witness :
    (DependencyChain.mk (some .SECONDARY) [2, 3]).depends_on
        (DependencyChain.mk (some .TERTIARY) [3]) = true ↔
      ∃ ta tb, (DependencyChain.mk (some .SECONDARY) [2, 3]).tier = some ta ∧
        (DependencyChain.mk (some .TERTIARY) [3]).tier = some tb ∧
        tierIndex ta < tierIndex tb ∧
        ∃ g, g ∈ (DependencyChain.mk (some .SECONDARY) [2, 3]).group_ids ∧
          g ∈ (DependencyChain.mk (some .TERTIARY) [3]).group_ids :=
  depends_on_characterisation _ _

/-- C2 counterexample: a PRIMARY chain *does* depend on a SECONDARY chain
sharing a group id, so "a PRIMARY chain never depends on any chain" is
false, and `T.depends_on P` is false, so a TERTIARY chain cannot depend on
a PRIMARY one. -/
theorem primary_depends_on_secondary :
    (DependencyChain.mk (some .PRIMARY) [1]).depends_on
        (DependencyChain.mk (some .SECONDARY) [1]) = true ∧
      (DependencyChain.mk (some .TERTIARY) [1]).depends_on
        (DependencyChain.mk (some .PRIMARY) [1]) = false := by
  decide

/-- C2 (amended): `depends_on` is irreflexive, but the tier order is the
reverse of the claimed one: a TERTIARY chain never depends on any chain, a
PRIMARY chain never depends on a PRIMARY chain, and a PRIMARY chain depends
on a SECONDARY or TERTIARY chain exactly when they share a group id. -/
theorem depends_on_irrefl_and_tier_order (a b : DependencyChain) :
    a.depends_on a = false ∧
      (a.tier = some .TERTIARY → a.depends_on b = false) ∧
      (a.tier = some .PRIMARY → b.tier = some .PRIMARY →
        a.depends_on b = false) ∧
      (a.tier = some .PRIMARY →
        (b.tier = some .SECONDARY ∨ b.tier = some .TERTIARY) →
        (a.depends_on b = true ↔ ∃ g, g ∈ a.group_ids ∧ g ∈ b.group_ids)) := by
  refine ⟨?_, ?_, ?_, ?_⟩
  · cases ha : a.tier with
    | none => simp [DependencyChain.depends_on, ha]
    | some ta => simp [DependencyChain.depends_on, ha]
  · intro ha
    cases hb : b.tier with
    | none => simp [DependencyChain.depends_on, ha, hb]
    | some tb =>
      have : tierIndex .TERTIARY ≥ tierIndex tb := by cases tb <;> decide
      simp [DependencyChain.depends_on, ha, hb, this]
  · intro ha hb
    simp [DependencyChain.depends_on, ha, hb, tierIndex, DependencyTier.ordered]
  · intro ha hb
    have hlt : ∃ tb, b.tier = some tb ∧
        tierIndex .PRIMARY < tierIndex tb := by
      rcases hb with hb | hb
      · exact ⟨_, hb, by decide⟩
      · exact ⟨_, hb, by decide⟩
    obtain ⟨tb, hbt, hord⟩ := hlt
    simp only [DependencyChain.depends_on, ha, hbt, if_neg (not_le.mpr hord)]
    exact anyShared_iff _ _

/-- C2 amended witness: the amended statement instantiated at a concrete
TERTIARY/PRIMARY pair. -/
theorem depends_on_irrefl_and_tier_order_witness :
    (DependencyChain.mk (some .TERTIARY) [1]).depends_on
        (DependencyChain.mk (some .TERTIARY) [1]) = false ∧
      ((DependencyChain.mk (some .TERTIARY) [1]).tier = some .TERTIARY →
        (DependencyChain.mk (some .TERTIARY) [1]).depends_on
          (DependencyChain.mk (some .PRIMARY) [1]) = false) ∧
      ((DependencyChain.mk (some .TERTIARY) [1]).tier = some .PRIMARY →
        (DependencyChain.mk (some .PRIMARY) [1]).tier = some .PRIMARY →
        (DependencyChain.mk (some .TERTIARY) [1]).depends_on
          (DependencyChain.mk (some .PRIMARY) [1]) = false) ∧
      ((DependencyChain.mk (some .TERTIARY) [1]).tier = some .PRIMARY →
        ((DependencyChain.mk (some .PRIMARY) [1]).tier = some .SECONDARY ∨
          (DependencyChain.mk (some .PRIMARY) [1]).tier = some .TERTIARY) →
        ((DependencyChain.mk (some .TERTIARY) [1]).depends_on
            (DependencyChain.mk (some .PRIMARY) [1]) = true ↔
          ∃ g, g ∈ (DependencyChain.mk (some .TERTIARY) [1]).group_ids ∧
            g ∈ (DependencyChain.mk (some .PRIMARY) [1]).group_ids)) :=
  depends_on_irrefl_and_tier_order _ _

/-! ## Claims about resiliency-grade aggregation -/

/-- The 70%-majority condition of `_calculate_grade_from_dependents`: at
least 70% of the collected grades are `≥ k`. -/
def gradeShare (grades : List ℤ) (k : ℤ) : Prop :=
  ((grades.filter (fun g => k ≤ g)).length : ℚ) / (grades.length : ℚ) ≥ 7 / 10

instance (grades : List ℤ) (k : ℤ) : Decidable (gradeShare grades k) := by
  unfold gradeShare; infer_instance

/-- C4: majority rule for the aggregate grade.  With no dependents at all
the result is an independent draw from the grade distribution; with
dependents none of which carries a grade it is `G1`; otherwise it is `G4`
iff at least 70% of the dependents' grades are `≥ 4`, else `G3` iff at
least 70% are `≥ 3`, else `G2` iff at least 70% are `≥ 2`, else `G1`. -/
theorem calculateGrade_majority_rule (dependents : List (Option UFCGrade)) :
    (dependents = [] →
      calculateGradeFromDependents dependents = .sampled) ∧
    (dependents ≠ [] → gradesOf dependents = [] →
      calculateGradeFromDependents dependents = .grade .G1) ∧
    (dependents ≠ [] → gradesOf dependents ≠ [] →
      (calculateGradeFromDependents dependents = .grade .G4 ↔
        gradeShare (gradesOf dependents) 4) ∧
      (calculateGradeFromDependents dependents = .grade .G3 ↔
        ¬ gradeShare (gradesOf dependents) 4 ∧
          gradeShare (gradesOf dependents) 3) ∧
      (calculateGradeFromDependents dependents = .grade .G2 ↔
        ¬ gradeShare (gradesOf dependents) 4 ∧
          ¬ gradeShare (gradesOf dependents) 3 ∧
          gradeShare (gradesOf dependents) 2) ∧
      (calculateGradeFromDependents dependents = .grade .G1 ↔
        ¬ gradeShare (gradesOf dependents) 4 ∧
          ¬ gradeShare (gradesOf dependents) 3 ∧
          ¬ gradeShare (gradesOf dependents) 2)) := by
  refine ⟨?_, ?_, ?_⟩
  · intro h; simp [calculateGradeFromDependents, h]
  · intro h1 h2; simp [calculateGradeFromDependents, h1, h2]
  · intro h1 h2
    have hcalc : calculateGradeFromDependents dependents =
        (if gradeShare (gradesOf dependents) 4 then .grade .G4
         else if gradeShare (gradesOf dependents) 3 then .grade .G3
         else if gradeShare (gradesOf dependents) 2 then .grade .G2
         else .grade .G1) := by
      simp only [calculateGradeFromDependents, if_neg h1, if_neg h2,
        gradeShare]
    rw [hcalc]
    by_cases h4 : gradeShare (gradesOf dependents) 4 <;>
      by_cases h3 : gradeShare (gradesOf dependents) 3 <;>
      by_cases hg2 : gradeShare (gradesOf dependents) 2 <;>
      simp [h4, h3, hg2]

/-- Ten TERTIARY dependents, eight of grade 3 and two of grade 1: the
spec's worked aggregation example. -/
def tenDependents : List (Option UFCGrade) :=
  List.replicate 8 (some .G3) ++ List.replicate 2 (some .G1)

/-- C4 witness: the majority rule instantiated on ten dependents, eight of
which carry grade 3 (so the ≥3 share is 80% and the parent grade is G3 but
not G4). -/
theorem calculateGrade_majority_rule_witness :
    (tenDependents = [] →
      calculateGradeFromDependents tenDependents = .sampled) ∧
    (tenDependents ≠ [] → gradesOf tenDependents = [] →
      calculateGradeFromDependents tenDependents = .grade .G1) ∧
    (tenDependents ≠ [] → gradesOf tenDependents ≠ [] →
      (calculateGradeFromDependents tenDependents = .grade .G4 ↔
        gradeShare (gradesOf tenDependents) 4) ∧
      (calculateGradeFromDependents tenDependents = .grade .G3 ↔
        ¬ gradeShare (gradesOf tenDependents) 4 ∧
          gradeShare (gradesOf tenDependents) 3) ∧
      (calculateGradeFromDependents tenDependents = .grade .G2 ↔
        ¬ gradeShare (gradesOf tenDependents) 4 ∧
          ¬ gradeShare (gradesOf tenDependents) 3 ∧
          gradeShare (gradesOf tenDependents) 2) ∧
      (calculateGradeFromDependents tenDependents = .grade .G1 ↔
        ¬ gradeShare (gradesOf tenDependents) 4 ∧
          ¬ gradeShare (gradesOf tenDependents) 3 ∧
          ¬ gradeShare (gradesOf tenDependents) 2)) :=
  calculateGrade_majority_rule tenDependents

/-! ## Claims about `ProbabilitySegment` construction -/

/-- C9 counterexample: the constructor accepts the unparseable value
`"abc"` (construction succeeds), yet `_parse_value` cannot parse it, so a
constructed segment can violate the parses-to-a-number-or-range
invariant. -/
theorem segment_accepts_malformed_value :
    mkProbabilitySegment 50 (some "abc") = .ok ⟨50, "abc"⟩ ∧
      parseValue "abc" = none := by
  constructor <;> rfl

/-- C9 (amended): construction fails exactly when the percentage lies
outside `[1,100]` or the value is `None` or strips to the empty string;
malformed values are accepted at construction time and merely parse to
`None` later; whenever parsing does produce a range, it is strictly
ordered (`min < max`). -/
theorem segment_construction_validation :
    (∀ (p : ℤ) (v : Option String),
      (∃ s, mkProbabilitySegment p v = .ok s) ↔
        (1 ≤ p ∧ p ≤ 100 ∧ ∃ str, v = some str ∧ pyStrip str ≠ "")) ∧
    (∀ (s : String) (lo hi : ℤ), parseValue s = some (.range lo hi) →
      lo < hi) := by
  constructor
  · intro p v
    by_cases hp : 1 ≤ p ∧ p ≤ 100
    · cases v with
      | none => simp [mkProbabilitySegment, hp]
      | some str =>
        by_cases ht : pyStrip str = ""
        · simp [mkProbabilitySegment, hp, ht]
        · simp [mkProbabilitySegment, hp, ht]
    · constructor
      · rintro ⟨s, hs⟩
        simp only [mkProbabilitySegment, if_pos hp] at hs
        exact absurd hs (by simp)
      · rintro ⟨h1, h2, -⟩
        exact absurd ⟨h1, h2⟩ hp
  · intro s lo hi h
    unfold parseValue at h
    split at h
    · split at h
      case _ a b ha hb =>
        by_cases hab : a > b
        · simp only [hab] at h
          norm_num at h
          split at h
          · simp at h
          · obtain ⟨rfl, rfl⟩ := h
            omega
        · simp only [hab] at h
          norm_num at h
          split at h
          · simp at h
          · obtain ⟨rfl, rfl⟩ := h
            omega
      all_goals simp at h
    · rw [Option.map_eq_some'] at h
      obtain ⟨n, -, hn⟩ := h
      exact absurd hn (by simp)

/-- C9 amended witness: `"20-40"` parses to the range `(20, 40)`, which is
strictly ordered. -/
theorem segment_construction_validation_witness :
    parseValue "20-40" = some (.range 20 40) ∧ (20 : ℤ) < 40 :=
  ⟨by decide, segment_construction_validation.2 "20-40" 20 40 (by decide)⟩

/-! ## Claims about the trajectory projection -/

lemma pyRound_bounds (x : ℚ) : ⌊x⌋ ≤ pyRound x ∧ pyRound x ≤ ⌊x⌋ + 1 := by
  unfold pyRound
  split
  · split <;> omega
  · rw [round_eq]
    constructor
    · exact Int.floor_le_floor (by linarith)
    · rw [Int.floor_le_iff]
      have := Int.lt_floor_add_one x
      push_cast
      linarith

lemma pyRound_mono {x y : ℚ} (h : x ≤ y) : pyRound x ≤ pyRound y := by
  rcases le_or_lt (⌊x⌋ + 1) ⌊y⌋ with hf | hf
  · calc pyRound x ≤ ⌊x⌋ + 1 := (pyRound_bounds x).2
      _ ≤ ⌊y⌋ := hf
      _ ≤ pyRound y := (pyRound_bounds y).1
  · have hfe : ⌊x⌋ = ⌊y⌋ :=
      le_antisymm (Int.floor_le_floor h) (by omega)
    by_cases tx : x - ⌊x⌋ = 1 / 2 <;> by_cases ty : y - ⌊y⌋ = 1 / 2
    · have hxy : x = y := by rw [hfe] at tx; linarith
      rw [hxy]
    · -- `x` is a tie, `y` is strictly above its tie point
      have hcast : ((⌊x⌋ : ℚ)) = ((⌊y⌋ : ℚ)) := by exact_mod_cast hfe
      have hy : (⌊y⌋ : ℚ) + 1 / 2 < y := by
        rcases lt_or_eq_of_le (show (⌊y⌋ : ℚ) + 1 / 2 ≤ y by linarith) with
          h' | h'
        · exact h'
        · exact absurd h'.symm (by intro hc; exact ty (by linarith))
      have hry : ⌊y⌋ + 1 ≤ pyRound y := by
        unfold pyRound
        rw [if_neg ty, round_eq, Int.le_floor]
        push_cast
        linarith
      have hrx : pyRound x ≤ ⌊x⌋ + 1 := (pyRound_bounds x).2
      omega
    · -- `y` is a tie, `x` is strictly below its tie point
      have hcast : ((⌊x⌋ : ℚ)) = ((⌊y⌋ : ℚ)) := by exact_mod_cast hfe
      have hx : x < (⌊x⌋ : ℚ) + 1 / 2 := by
        rcases lt_or_eq_of_le (show x ≤ (⌊x⌋ : ℚ) + 1 / 2 by linarith) with
          h' | h'
        · exact h'
        · exact absurd h' (by intro hc; exact tx (by linarith))
      have hrx : pyRound x ≤ ⌊x⌋ := by
        unfold pyRound
        rw [if_neg tx, round_eq]
        rw [Int.floor_le_iff]
        linarith
      have hry : ⌊y⌋ ≤ pyRound y := (pyRound_bounds y).1
      omega
    · unfold pyRound
      rw [if_neg tx, if_neg ty, round_eq, round_eq]
      exact Int.floor_le_floor (by linarith)

lemma round2_mono {x y : ℚ} (h : x ≤ y) : round2 x ≤ round2 y := by
  unfold round2
  have : pyRound (x * 100) ≤ pyRound (y * 100) :=
    pyRound_mono (by linarith)
  have h100 : (0 : ℚ) ≤ 100 := by norm_num
  exact div_le_div_of_nonneg_right (by exact_mod_cast this) h100

/-- Shape of the `_generate_trajectory` loop output: some prefix length
`L ≤ remaining`, whose entry `i` records month `month + i` and the rounded
value of `ci · (1−R)^(i+1)`, and every non-final unrounded value stays
strictly above the threshold. -/
lemma trajAux_spec (threshold r : ℚ) :
    ∀ (rem month : ℕ) (ci : ℚ),
      ∃ L, L ≤ rem ∧
        trajAux threshold r rem month ci =
          (List.range L).map
            (fun i => (month + i, round2 (ci * (1 - r) ^ (i + 1)))) ∧
        ∀ i, i + 1 < L → threshold < ci * (1 - r) ^ (i + 1) := by
  intro rem
  induction rem with
  | zero =>
    intro month ci
    exact ⟨0, Nat.le_refl 0, rfl, by omega⟩
  | succ n ih =>
    intro month ci
    by_cases hstop : ci * (1 - r) ≤ threshold
    · refine ⟨1, by omega, ?_, by omega⟩
      simp [trajAux, hstop, show List.range 1 = [0] from rfl]
    · obtain ⟨L, hL, heq, hthr⟩ := ih (month + 1) (ci * (1 - r))
      refine ⟨L + 1, by omega, ?_, ?_⟩
      · simp only [trajAux, if_neg hstop]
        rw [heq, List.range_succ_eq_map]
        simp only [List.map_cons, List.map_map]
        congr 1
        · simp
        · apply List.map_congr_left
          intro i _
          simp only [Function.comp_apply, Prod.mk.injEq,
            Nat.succ_eq_add_one]
          constructor
          · omega
          · congr 1
            ring
      · intro i hi
        cases i with
        | zero =>
          simpa [pow_one] using lt_of_not_le hstop
        | succ j =>
          have hj := hthr j (by omega)
          calc threshold < ci * (1 - r) * (1 - r) ^ (j + 1) := hj
            _ = ci * (1 - r) ^ (j + 1 + 1) := by ring

/-- C7 (amended): for a trajectory produced by the model (a decay rate in
`(0,1)` and a positive current CI, which is what the calling code
guarantees), the trajectory has at most 121 entries, the recorded values
are non-increasing from the second entry on (the unrounded first entry may
be exceeded by the rounded second entry), and generation stops at the
first iterate whose unrounded condition index reaches the threshold: every
non-final month `i ≥ 1` satisfies `threshold < ci·(1−R)^i`. -/
theorem generateTrajectory_spec (threshold current_ci r : ℚ)
    (months_ahead : ℤ) (hci : 0 < current_ci) (hr0 : 0 < r) (hr1 : r < 1) :
    (generateTrajectory threshold current_ci r months_ahead).length ≤ 121 ∧
    (((generateTrajectory threshold current_ci r months_ahead).map
        Prod.snd).tail).Chain' (fun a b => b ≤ a) ∧
    (∀ i : ℕ, 1 ≤ i →
      i + 1 < (generateTrajectory threshold current_ci r months_ahead).length →
      threshold < current_ci * (1 - r) ^ i) := by
  obtain ⟨L, hL, heq, hthr⟩ :=
    trajAux_spec threshold r (min months_ahead 120).toNat 1 current_ci
  have hrem : (min months_ahead 120).toNat ≤ 120 := by omega
  have h01 : (0 : ℚ) ≤ 1 - r := by linarith
  have hle1 : (1 : ℚ) - r ≤ 1 := by linarith
  refine ⟨?_, ?_, ?_⟩
  · simp only [generateTrajectory, heq, List.length_cons, List.length_map,
      List.length_range]
    omega
  · simp only [generateTrajectory, heq, List.map_cons, List.tail_cons,
      List.map_map]
    rw [List.chain'_map]
    cases L with
    | zero => simp
    | succ m =>
      rw [List.chain'_range_succ]
      intro k _
      show round2 (current_ci * (1 - r) ^ (k + 1 + 1)) ≤
        round2 (current_ci * (1 - r) ^ (k + 1))
      apply round2_mono
      have hpow : (1 - r) ^ (k + 1 + 1) ≤ (1 - r) ^ (k + 1) :=
        pow_le_pow_of_le_one h01 hle1 (by omega)
      exact mul_le_mul_of_nonneg_left hpow hci.le
  · intro i h1i hi
    obtain ⟨j, rfl⟩ : ∃ j, i = j + 1 := ⟨i - 1, by omega⟩
    have hlen :
        (generateTrajectory threshold current_ci r months_ahead).length
          = L + 1 := by
      simp [generateTrajectory, heq]
    rw [hlen] at hi
    exact hthr j (by omega)

/-- C7 counterexample: the recorded condition-index values are *not*
always non-increasing: starting at `CI = 49.9999` with decay rate
`R = 0.00008`, the unrounded first entry is `49.9999` while the second
entry is rounded up to `50.0 > 49.9999`. -/
theorem trajectory_recorded_values_can_increase :
    ((generateTrajectory 25 (499999 / 10000) (1 / 12500) 5).map
        Prod.snd).take 2 = [499999 / 10000, 50] ∧
      (499999 / 10000 : ℚ) < 50 := by
  have h50 : round2 ((499999 : ℚ) / 10000 * (1 - 1 / 12500)) = 50 := by
    have hx : ((499999 : ℚ) / 10000 * (1 - 1 / 12500)) * 100
        = 6249487501 / 1250000 := by norm_num
    unfold round2 pyRound
    rw [hx]
    have hfl : ⌊(6249487501 : ℚ) / 1250000⌋ = 4999 := by
      rw [Int.floor_eq_iff]
      norm_num
    rw [hfl, if_neg (by norm_num)]
    have hfl2 : ⌊(6249487501 : ℚ) / 1250000 + 1 / 2⌋ = 5000 := by
      rw [Int.floor_eq_iff]
      norm_num
    rw [round_eq, hfl2]
    norm_num
  constructor
  · have hmin : ((min (5 : ℤ) 120).toNat) = 5 := by decide
    have hstep : generateTrajectory 25 (499999 / 10000) (1 / 12500) 5 =
        (0, (499999 : ℚ) / 10000) ::
          (1, round2 ((499999 : ℚ) / 10000 * (1 - 1 / 12500))) ::
          (if ((499999 : ℚ) / 10000 * (1 - 1 / 12500)) ≤ 25 then []
           else trajAux 25 (1 / 12500) 4 2
             ((499999 : ℚ) / 10000 * (1 - 1 / 12500))) := by
      rw [generateTrajectory, hmin]
      rfl
    rw [hstep, h50]
    rfl
  · norm_num

/-- C7 amended witness: the spec instantiated on a concrete trajectory
(CI 100, rate 1/2, three months ahead). -/
theorem generateTrajectory_spec_witness :
    (generateTrajectory 25 100 (1 / 2) 3).length ≤ 121 :=
  (generateTrajectory_spec 25 100 (1 / 2) 3 (by norm_num) (by norm_num)
    (by norm_num)).1

/-! ## Claims about the decay model -/

/-- Whenever `_calculate_decay_rate` (or the identical
`_compute_decay_rate`) returns a rate, it lies strictly between 0 and 1:
the ratio is in `(0,1)` and the exponent `1/age` is positive, so
`ratio^(1/age) ∈ (0,1)`. -/
lemma calculateDecayRate_mem {initial_ci current_ci : ℝ} {age_months : ℤ}
    {r : ℝ}
    (h : calculateDecayRate initial_ci current_ci age_months = some r) :
    0 < r ∧ r < 1 := by
  unfold calculateDecayRate at h
  split at h
  · exact absurd h (by simp)
  split at h
  · exact absurd h (by simp)
  dsimp only at h
  split at h
  · exact absurd h (by simp)
  next hρ =>
  split at h
  next hpos =>
    rw [Option.some_inj] at h
    subst h
    push_neg at hρ
    have hpow : 0 < (current_ci / initial_ci) ^
        ((1 : ℝ) / (age_months : ℝ)) :=
      Real.rpow_pos_of_pos hρ.1 _
    exact ⟨hpos, by linarith⟩
  · exact absurd h (by simp)

/-- C10: whenever the decay-rate inversion (the model's
`_calculate_decay_rate` or the dataset generator's `_compute_decay_rate`)
returns a number, that number is strictly between 0 and 1; hence the
composed months-to-degradation computation can never hand a rate `≥ 1` to
the months-until-threshold solver (the solver only ever receives a rate
returned by this inversion). -/
theorem decay_rate_strictly_between_zero_and_one
    (initial_ci current_ci : ℝ) (age_months : ℤ) (r : ℝ) :
    (calculateDecayRate initial_ci current_ci age_months = some r →
      0 < r ∧ r < 1) ∧
    (computeDecayRate initial_ci current_ci age_months = some r →
      0 < r ∧ r < 1) :=
  ⟨fun h => calculateDecayRate_mem h, fun h => calculateDecayRate_mem h⟩

/-- Concrete evaluation of the rate inversion at CI 50, initial CI 100,
age 1: the inferred monthly rate is 1/2. -/
lemma calculateDecayRate_hundred_fifty :
    calculateDecayRate 100 50 1 = some (1 / 2) := by
  have hpow : ((50 : ℝ) / 100) ^ ((1 : ℝ) / ((1 : ℤ) : ℝ)) = 1 / 2 := by
    norm_num [Real.rpow_one]
  unfold calculateDecayRate
  rw [if_neg (by norm_num), if_neg (by norm_num)]
  simp only [hpow]
  rw [if_neg (by norm_num), if_pos (by norm_num)]
  norm_num

/-- C10 witness: the invariant applied to the concrete inversion above. -/
theorem decay_rate_strictly_between_zero_and_one_witness :
    0 < (1 : ℝ) / 2 ∧ (1 : ℝ) / 2 < 1 :=
  (decay_rate_strictly_between_zero_and_one 100 50 1 (1 / 2)).1
    calculateDecayRate_hundred_fifty

/-- C3 counterexample: with threshold 25, current CI 50 (strictly above
the threshold) and decay rate 1, the model's `_months_until_threshold`
returns the 999 sentinel, not 0 as the claim states. -/
theorem months_until_threshold_at_rate_one :
    monthsUntilThreshold 25 50 1 = 999 ∧ (999 : ℝ) ≠ 0 := by
  constructor
  · unfold monthsUntilThreshold
    rw [if_pos (Or.inl (by norm_num))]
  · norm_num

/-- C3 (amended): for every current CI strictly above the threshold and
every decay rate `R ≥ 1`, the model's `_months_until_threshold` returns the
999 sentinel ("no foreseeable degradation"), not 0.  (The dataset
generator's inline solver is the one that maps `R ≥ 1` to 0, and by the
rate invariant that branch is unreachable through the composed
computation.) -/
theorem months_until_threshold_saturated_rate (threshold current_ci r : ℝ)
    (hci : threshold < current_ci) (hr : 1 ≤ r) :
    monthsUntilThreshold threshold current_ci r = 999 := by
  unfold monthsUntilThreshold
  rw [if_pos (Or.inl hr)]

/-- C3 amended witness: the saturated-rate sentinel at threshold 25,
CI 50, rate 2. -/
theorem months_until_threshold_saturated_rate_witness :
    monthsUntilThreshold 25 50 2 = 999 :=
  months_until_threshold_saturated_rate 25 50 2 (by norm_num) (by norm_num)

/-- The months-to-degradation computation as the (amended) specification
states it: 0 when already at or below the threshold; the 999 sentinel when
the rate is undefined (non-positive age, non-positive current or initial
CI, or a ratio outside `(0,1)`) or when the log formula's argument
`threshold / current_ci` is not positive (the caught `ValueError` path);
otherwise `max(0, log(threshold/CI)/log(1−R))` at the inferred rate
`R = 1 − (CI/CI₀)^(1/age)`. -/
noncomputable def specMonthsToDegradation
    (initial_ci threshold current_ci : ℝ) (age_months : ℤ) : ℝ :=
  if current_ci ≤ threshold then 0
  else if age_months ≤ 0 ∨ current_ci ≤ 0 ∨ initial_ci ≤ 0
      ∨ current_ci / initial_ci ≤ 0 ∨ 1 ≤ current_ci / initial_ci then 999
  else if threshold ≤ 0 then 999
  else
    max 0 (Real.log (threshold / current_ci) /
      Real.log (1 - (1 - (current_ci / initial_ci) ^
        ((1 : ℝ) / (age_months : ℝ)))))

/-- C1 (amended): the composed months-to-degradation computation equals
the spec-side piecewise formula above for *every* configuration and input:
0 at or below the threshold; 999 whenever the rate is undefined — which,
beyond the claimed `age ≤ 0` and ratio-outside-`(0,1)` cases, also covers
`current_ci ≤ 0` and `initial_ci ≤ 0` — or the rate is not positive, or
the threshold is not positive (caught `ValueError`); otherwise the clamped
log formula; and it never raises (every exception path is an explicit 999
branch). -/
theorem months_to_degradation_characterisation
    (initial_ci threshold current_ci : ℝ) (age_months : ℤ) :
    calculateMonthsToDegradation initial_ci threshold current_ci age_months
      = specMonthsToDegradation initial_ci threshold current_ci age_months := by
  unfold calculateMonthsToDegradation specMonthsToDegradation
  by_cases hct : current_ci ≤ threshold
  · rw [if_pos hct, if_pos hct]
  rw [if_neg hct, if_neg hct]
  by_cases hage : age_months ≤ 0
  · have hr : calculateDecayRate initial_ci current_ci age_months = none := by
      unfold calculateDecayRate
      rw [if_pos hage]
    rw [hr, if_pos (Or.inl hage)]
  by_cases hcz : current_ci ≤ 0 ∨ initial_ci ≤ 0
  · have hr : calculateDecayRate initial_ci current_ci age_months = none := by
      unfold calculateDecayRate
      rw [if_neg hage, if_pos hcz]
    rw [hr, if_pos (by tauto)]
  by_cases hρ : current_ci / initial_ci ≤ 0 ∨ 1 ≤ current_ci / initial_ci
  · have hr : calculateDecayRate initial_ci current_ci age_months = none := by
      unfold calculateDecayRate
      rw [if_neg hage, if_neg hcz]
      dsimp only
      rw [if_pos hρ]
    rw [hr, if_pos (by tauto)]
  -- the rate is defined: collect the facts the guards guarantee
  have hc0 : 0 < current_ci := by
    rcases not_or.mp hcz with ⟨h1, -⟩
    exact lt_of_not_le h1
  have hρ0 : 0 < current_ci / initial_ci := by
    rcases not_or.mp hρ with ⟨h1, -⟩
    exact lt_of_not_le h1
  have hρ1 : current_ci / initial_ci < 1 := by
    rcases not_or.mp hρ with ⟨-, h2⟩
    exact lt_of_not_le h2
  have hagepos : (0 : ℝ) < (age_months : ℝ) := by
    exact_mod_cast lt_of_not_le hage
  have hepos : (0 : ℝ) < 1 / (age_months : ℝ) := by positivity
  have hpowpos : 0 < (current_ci / initial_ci) ^
      ((1 : ℝ) / (age_months : ℝ)) := Real.rpow_pos_of_pos hρ0 _
  have hpowlt : (current_ci / initial_ci) ^
      ((1 : ℝ) / (age_months : ℝ)) < 1 :=
    Real.rpow_lt_one hρ0.le hρ1 hepos
  have hr : calculateDecayRate initial_ci current_ci age_months
      = some (1 - (current_ci / initial_ci) ^
          ((1 : ℝ) / (age_months : ℝ))) := by
    unfold calculateDecayRate
    rw [if_neg hage, if_neg hcz]
    dsimp only
    rw [if_neg hρ, if_pos (by linarith)]
  rw [hr, if_neg (by push_neg; exact ⟨lt_of_not_le hage, hc0,
    lt_of_not_le (fun h => hcz (Or.inr h)), hρ0, hρ1⟩)]
  dsimp only
  rw [if_neg (by linarith :
    ¬ 1 - (current_ci / initial_ci) ^ ((1 : ℝ) / (age_months : ℝ)) ≤ 0)]
  unfold monthsUntilThreshold
  rw [if_neg (by push_neg; constructor <;> linarith), if_neg hct]
  unfold tryLogMonths
  have hsub : (1 : ℝ) - (1 - (current_ci / initial_ci) ^
      ((1 : ℝ) / (age_months : ℝ)))
      = (current_ci / initial_ci) ^ ((1 : ℝ) / (age_months : ℝ)) := by ring
  have hlogneg : Real.log (1 - (1 - (current_ci / initial_ci) ^
      ((1 : ℝ) / (age_months : ℝ)))) < 0 := by
    rw [hsub]
    exact Real.log_neg hpowpos hpowlt
  have hdiv : threshold / current_ci ≤ 0 ↔ threshold ≤ 0 := by
    constructor
    · intro hd
      by_contra hth
      push_neg at hth
      exact absurd hd (not_le.mpr (div_pos hth hc0))
    · intro ht
      exact div_nonpos_iff.mpr (Or.inr ⟨ht, hc0.le⟩)
  by_cases hth : threshold ≤ 0
  · rw [if_pos (Or.inl (hdiv.mpr hth)), if_pos hth]
  · rw [if_neg hth, if_neg (by
      push_neg
      refine ⟨div_pos (lt_of_not_le hth) hc0, ?_, ne_of_lt hlogneg⟩
      rw [hsub]
      exact hpowpos)]

/-- C1 counterexample: at configuration `initial_ci = −2`,
`threshold = −5` and input `(current_ci, age) = (−1, 12)`, the ratio
`(−1)/(−2) = 1/2` lies strictly between 0 and 1 and the claimed formula
value is `max(0, log 5 / log((1/2)^(1/12))) = 0`, yet the code returns the
999 sentinel (its `current_ci ≤ 0` guard fires first), so the claimed
case analysis is wrong as stated. -/
theorem months_to_degradation_negative_ci :
    calculateMonthsToDegradation (-2) (-5) (-1) 12 = 999 ∧
      max 0 (Real.log ((-5) / (-1 : ℝ)) /
        Real.log (1 - (1 - ((-1 : ℝ) / (-2)) ^ ((1 : ℝ) / (12 : ℝ))))) = 0 ∧
      (999 : ℝ) ≠ 0 := by
  refine ⟨?_, ?_, by norm_num⟩
  · unfold calculateMonthsToDegradation
    rw [if_neg (by norm_num)]
    have hr : calculateDecayRate (-2) (-1) 12 = none := by
      unfold calculateDecayRate
      rw [if_neg (by norm_num), if_pos (by norm_num)]
    rw [hr]
  · have hb : ((-1 : ℝ)) / (-2) = 1 / 2 := by norm_num
    have h5 : ((-5 : ℝ)) / (-1) = 5 := by norm_num
    have hsub : (1 : ℝ) - (1 - ((-1 : ℝ) / (-2)) ^ ((1 : ℝ) / (12 : ℝ)))
        = ((1 : ℝ) / 2) ^ ((1 : ℝ) / (12 : ℝ)) := by
      rw [hb]
      ring
    rw [h5, hsub]
    have hppos : 0 < ((1 : ℝ) / 2) ^ ((1 : ℝ) / (12 : ℝ)) :=
      Real.rpow_pos_of_pos (by norm_num) _
    have hplt : ((1 : ℝ) / 2) ^ ((1 : ℝ) / (12 : ℝ)) < 1 :=
      Real.rpow_lt_one (by norm_num) (by norm_num) (by norm_num)
    have hlog : Real.log (((1 : ℝ) / 2) ^ ((1 : ℝ) / (12 : ℝ))) < 0 :=
      Real.log_neg hppos hplt
    have hlog5 : 0 < Real.log 5 := Real.log_pos (by norm_num)
    exact max_eq_left (div_nonpos_iff.mpr (Or.inl ⟨hlog5.le, hlog.le⟩))

/-- C5: under the same `(initial_ci, degradation_threshold)` configuration
the training-label oracle agrees with the analytical model everywhere: the
months-to-degradation label equals the model's prediction for every
`(current_ci, age_months)` (the two implementations differ only in the
unreachable `rate ≥ 1` branch), and the degradation-rate label is the
model's inferred decay rate, reported as 0 where it is undefined. -/
theorem training_labels_match_decay_model
    (initial_ci threshold current_ci : ℝ) (age_months : ℤ) :
    computeMonthsToDegradation initial_ci threshold current_ci age_months =
      calculateMonthsToDegradation initial_ci threshold current_ci
        age_months ∧
    computeDegradationRate initial_ci current_ci age_months =
      (calculateDecayRate initial_ci current_ci age_months).getD 0 := by
  constructor
  · unfold computeMonthsToDegradation calculateMonthsToDegradation
    by_cases hct : current_ci ≤ threshold
    · rw [if_pos hct, if_pos hct]
    rw [if_neg hct, if_neg hct]
    have hcc : computeDecayRate initial_ci current_ci age_months
        = calculateDecayRate initial_ci current_ci age_months := rfl
    rw [hcc]
    cases hr : calculateDecayRate initial_ci current_ci age_months with
    | none => rfl
    | some r =>
      obtain ⟨hr0, hr1⟩ := calculateDecayRate_mem hr
      dsimp only
      rw [if_neg (show ¬ r ≤ 0 by linarith)]
      rw [if_neg (show ¬ r ≥ 1 by linarith)]
      rw [if_neg (show ¬ r ≤ 0 by linarith)]
      unfold monthsUntilThreshold
      rw [if_neg (by push_neg; constructor <;> linarith), if_neg hct]
  · rfl

/-- C6: the decay-rate inversion round-trips: decaying `CI₀ = 99.99` for
60 months at rate `R = 0.01` and then inverting recovers the rate to
within `10⁻⁹` (in the real-number model the recovery is exact). -/
theorem decay_rate_inversion_round_trip :
    ∃ r, calculateDecayRate 99.99 (99.99 * (1 - 0.01) ^ (60 : ℕ)) 60
        = some r ∧ |r - 0.01| ≤ 1e-9 := by
  have hq : (99.99 : ℝ) * (1 - 0.01) ^ (60 : ℕ) / 99.99
      = (0.99 : ℝ) ^ (60 : ℕ) := by
    rw [show (1 : ℝ) - 0.01 = 0.99 by norm_num]
    rw [mul_comm, mul_div_assoc]
    rw [div_self (by norm_num : (99.99 : ℝ) ≠ 0), mul_one]
  have hpow : ((0.99 : ℝ) ^ (60 : ℕ)) ^ ((1 : ℝ) / ((60 : ℤ) : ℝ))
      = 0.99 := by
    rw [← Real.rpow_natCast (0.99 : ℝ) 60,
      ← Real.rpow_mul (by norm_num : (0 : ℝ) ≤ 0.99)]
    norm_num
  refine ⟨0.01, ?_, by norm_num⟩
  unfold calculateDecayRate
  rw [if_neg (by norm_num), if_neg (by push_neg; constructor <;> norm_num)]
  dsimp only
  rw [hq, hpow]
  rw [if_neg (by norm_num), if_pos (by norm_num)]
  norm_num

end Midas
